import Mathlib

/-!
Verification of the NRF52_TimerInterrupt software timer multiplexer
(NRF52_ISR_Timer).

The repository ships the class header NRF52_ISR_Timer.h, which fixes the
constants, the slot record timer_t, the member fields and the inline
getNumAvailableTimers.  The method bodies live in an implementation file
that is not part of the sources at hand; those operations are modelled
from the specification (sections 4.1 and 4.2 of the design document),
faithfully to its words, and are marked as such in their doc comments.

Times are modelled as natural numbers reduced modulo the width of the
32-bit unsigned long used by the platform millisecond counter.  Callback
function pointers are modelled as opaque identifiers (an Option Nat,
none standing for the NULL pointer).  The evaluation routine run returns,
besides the new pool state, the list of dispatch events of that pass, in
dispatch order: each event is a pair of the slot index and the callback
identifier invoked for it.
-/

/-- Width of the 32-bit unsigned long millisecond counter. -/
def W : Nat := 2 ^ 32

/-- Header constant: maximum number of timers (MAX_NUMBER_TIMERS). -/
def MAX_NUMBER_TIMERS : Nat := 16

/-- Header constant: run budget meaning run forever. -/
def TIMER_RUN_FOREVER : Nat := 0

/-- Header constant: run budget meaning run once. -/
def TIMER_RUN_ONCE : Nat := 1

/-- Header constant: deferred call marker, do not call. -/
def TIMER_DEFCALL_DONTRUN : Nat := 0

/-- Header constant: deferred call marker, call but keep the timer. -/
def TIMER_DEFCALL_RUNONLY : Nat := 1

/-- Header constant: deferred call marker, call and delete the timer. -/
def TIMER_DEFCALL_RUNANDDEL : Nat := 2

/-- The slot record timer_t of the header: last fire time (prev_millis),
callback pointer, opaque parameter, parameter shape flag, interval
(delay), run budget (maxNumRuns), executed runs (numRuns), enabled flag,
and the deferred call marker (toBeCalled). -/
structure timer_t where
  prev_millis : Nat
  callback : Option Nat
  param : Nat
  hasParam : Bool
  delay : Nat
  maxNumRuns : Nat
  numRuns : Nat
  enabled : Bool
  toBeCalled : Nat
  deriving DecidableEq, Repr

/-- The empty (free) slot: all fields at their default values; a slot is
free exactly when its callback is the NULL pointer. -/
def emptySlot : timer_t :=
  { prev_millis := 0
    callback := none
    param := 0
    hasParam := false
    delay := 0
    maxNumRuns := 0
    numRuns := 0
    enabled := false
    toBeCalled := TIMER_DEFCALL_DONTRUN }

/-- The pool state of the NRF52_ISR_Timer class: the slot table and the
numTimers counter (an int in the source; -1 means uninitialized). -/
structure NRF52_ISR_Timer where
  timer : List timer_t
  numTimers : Int
  deriving DecidableEq, Repr

/-- Wraparound-safe elapsed time, the unsigned 32-bit subtraction
now - prev of the source, for now already reduced modulo W. -/
def elapsedTime (now prev : Nat) : Nat := (now + W - prev % W) % W

namespace NRF52_ISR_Timer

/-- Modelled from the spec: the constructor is not in the sources; per the
header comment on numTimers (-1 means uninitialized) it leaves the pool
with numTimers = -1. -/
def uninit : NRF52_ISR_Timer :=
  { timer := List.replicate MAX_NUMBER_TIMERS emptySlot, numTimers := -1 }

/-- Modelled from the spec: init() is not in the sources; it resets every
slot of the fixed table to the empty state and the in-use count to 0
(section 3, lifecycle: fields reset to their empty default state). -/
def initState : NRF52_ISR_Timer :=
  { timer := List.replicate MAX_NUMBER_TIMERS emptySlot, numTimers := 0 }

/-- Modelled from the spec: findFirstFreeSlot is not in the sources; per
section 4.1 it is a linear scan for the first free index (first fit),
returning -1 when no free index exists. -/
def findFirstFreeSlot (l : List timer_t) : Int :=
  match l.findIdx? (fun s => s.callback.isNone) with
  | some i => (i : Int)
  | none => -1

/-- Modelled from the spec: setupTimer is not in the sources; per section
4.1 an admission rejects a NULL callback and a full table with the
sentinel -1, and on success claims the first free index, initializing
lastFireTime to the current external time, enabled to true and
runsSoFar to 0, returning the claimed index. -/
def setupTimer (t d : Nat) (f : Option Nat) (p : Nat) (hp : Bool) (n : Nat)
    (st : NRF52_ISR_Timer) : Int × NRF52_ISR_Timer :=
  if f.isNone then (-1, st)
  else
    let ft := findFirstFreeSlot st.timer
    if ft < 0 then (-1, st)
    else
      (ft,
        { timer := st.timer.set ft.toNat
            { prev_millis := t % W
              callback := f
              param := p
              hasParam := hp
              delay := d
              maxNumRuns := n
              numRuns := 0
              enabled := true
              toBeCalled := TIMER_DEFCALL_DONTRUN }
          numTimers := st.numTimers + 1 })

/-- Modelled from the spec: setInterval (no-argument callback shape),
admission with run-forever budget. -/
def setInterval (t d : Nat) (f : Option Nat) (st : NRF52_ISR_Timer) :
    Int × NRF52_ISR_Timer :=
  setupTimer t d f 0 false TIMER_RUN_FOREVER st

/-- Modelled from the spec: setInterval (one-argument callback shape). -/
def setInterval_p (t d : Nat) (f : Option Nat) (p : Nat)
    (st : NRF52_ISR_Timer) : Int × NRF52_ISR_Timer :=
  setupTimer t d f p true TIMER_RUN_FOREVER st

/-- Modelled from the spec: setTimeout (no-argument callback shape),
admission with run-once budget. -/
def setTimeout (t d : Nat) (f : Option Nat) (st : NRF52_ISR_Timer) :
    Int × NRF52_ISR_Timer :=
  setupTimer t d f 0 false TIMER_RUN_ONCE st

/-- Modelled from the spec: setTimeout (one-argument callback shape). -/
def setTimeout_p (t d : Nat) (f : Option Nat) (p : Nat)
    (st : NRF52_ISR_Timer) : Int × NRF52_ISR_Timer :=
  setupTimer t d f p true TIMER_RUN_ONCE st

/-- Modelled from the spec: setTimer (no-argument callback shape),
admission with an exact-n run budget. -/
def setTimer (t d : Nat) (f : Option Nat) (n : Nat) (st : NRF52_ISR_Timer) :
    Int × NRF52_ISR_Timer :=
  setupTimer t d f 0 false n st

/-- Modelled from the spec: setTimer (one-argument callback shape). -/
def setTimer_p (t d : Nat) (f : Option Nat) (p : Nat) (n : Nat)
    (st : NRF52_ISR_Timer) : Int × NRF52_ISR_Timer :=
  setupTimer t d f p true n st

/-- Modelled from the spec: changeInterval is not in the sources; per
section 4.1 it updates intervalTicks and resets lastFireTime to the
current time on an in-use slot, and is a no-op error (false) on an
out-of-range or free id. -/
def changeInterval (t : Nat) (id : Nat) (d : Nat) (st : NRF52_ISR_Timer) :
    Bool × NRF52_ISR_Timer :=
  match st.timer[id]? with
  | some s =>
      if s.callback.isSome then
        (true,
          { timer := st.timer.set id { s with delay := d, prev_millis := t % W }
            numTimers := st.numTimers })
      else (false, st)
  | none => (false, st)

/-- Modelled from the spec: deleteTimer is not in the sources; per section
4.1 it resets an in-use slot to the empty free state regardless of its
enabled or pending state (lowering the in-use count), and is an
idempotent defensive no-op on an out-of-range or already-free id. -/
def deleteTimer (id : Nat) (st : NRF52_ISR_Timer) : NRF52_ISR_Timer :=
  match st.timer[id]? with
  | some s =>
      if s.callback.isSome then
        { timer := st.timer.set id emptySlot
          numTimers := st.numTimers - 1 }
      else st
  | none => st

/-- Modelled from the spec: restartTimer is not in the sources; per
section 4.1 it resets lastFireTime to the current time without altering
interval, enabled state or run counters. -/
def restartTimer (t : Nat) (id : Nat) (st : NRF52_ISR_Timer) :
    NRF52_ISR_Timer :=
  match st.timer[id]? with
  | some s =>
      { timer := st.timer.set id { s with prev_millis := t % W }
        numTimers := st.numTimers }
  | none => st

/-- Modelled from the spec: isEnabled reads the enabled flag, false on an
out-of-range id. -/
def isEnabled (id : Nat) (st : NRF52_ISR_Timer) : Bool :=
  match st.timer[id]? with
  | some s => s.enabled
  | none => false

/-- Modelled from the spec: enable is a pure state toggle on enabled. -/
def enable (id : Nat) (st : NRF52_ISR_Timer) : NRF52_ISR_Timer :=
  match st.timer[id]? with
  | some s =>
      { timer := st.timer.set id { s with enabled := true }
        numTimers := st.numTimers }
  | none => st

/-- Modelled from the spec: disable is a pure state toggle on enabled. -/
def disable (id : Nat) (st : NRF52_ISR_Timer) : NRF52_ISR_Timer :=
  match st.timer[id]? with
  | some s =>
      { timer := st.timer.set id { s with enabled := false }
        numTimers := st.numTimers }
  | none => st

/-- Modelled from the spec: toggle flips the enabled flag. -/
def toggle (id : Nat) (st : NRF52_ISR_Timer) : NRF52_ISR_Timer :=
  match st.timer[id]? with
  | some s =>
      { timer := st.timer.set id { s with enabled := !s.enabled }
        numTimers := st.numTimers }
  | none => st

/-- Modelled from the spec: enableAll sets every enabled flag. -/
def enableAll (st : NRF52_ISR_Timer) : NRF52_ISR_Timer :=
  { timer := st.timer.map (fun s => { s with enabled := true })
    numTimers := st.numTimers }

/-- Modelled from the spec: disableAll clears every enabled flag. -/
def disableAll (st : NRF52_ISR_Timer) : NRF52_ISR_Timer :=
  { timer := st.timer.map (fun s => { s with enabled := false })
    numTimers := st.numTimers }

/-- Modelled from the spec: getNumTimers returns the in-use counter. -/
def getNumTimers (st : NRF52_ISR_Timer) : Int := st.numTimers

/-- From the header (inline body): getNumAvailableTimers returns
MAX_NUMBER_TIMERS - numTimers; the value is converted to the unsigned
return type, that is, reduced modulo 2^32. -/
def getNumAvailableTimers (st : NRF52_ISR_Timer) : Int :=
  ((MAX_NUMBER_TIMERS : Int) - st.numTimers) % ((2 : Int) ^ 32)

/-- Modelled from the spec: phase 1 of run (section 4.2) on one slot.  An
in-use, enabled slot whose wraparound-safe elapsed time reaches its
interval is re-anchored to the actual fire time, its run counter is
incremented, and it is marked run-only while budget remains (run-forever,
or the incremented counter still below maxNumRuns) and run-and-delete
once the budget is exhausted; every other slot is left marked none. -/
def tick1 (t : Nat) (s : timer_t) : timer_t :=
  if s.callback.isSome ∧ s.enabled ∧ s.delay ≤ elapsedTime t s.prev_millis then
    { s with
      prev_millis := t
      numRuns := s.numRuns + 1
      toBeCalled :=
        if s.maxNumRuns = TIMER_RUN_FOREVER ∨ s.numRuns + 1 < s.maxNumRuns
        then TIMER_DEFCALL_RUNONLY else TIMER_DEFCALL_RUNANDDEL }
  else { s with toBeCalled := TIMER_DEFCALL_DONTRUN }

/-- Modelled from the spec: phase 2 of run (section 4.2) on one slot,
after its callback (if marked) has been dispatched: the mark is cleared,
and a run-and-delete slot is freed. -/
def tick2 (s : timer_t) : timer_t :=
  if s.toBeCalled = TIMER_DEFCALL_RUNANDDEL then emptySlot
  else { s with toBeCalled := TIMER_DEFCALL_DONTRUN }

/-- The dispatch event of phase 2 at one index of the marked table, when
the slot there is marked: the pair of the index and the callback
identifier invoked. -/
def dueMark (l : List timer_t) (i : Nat) : Option (Nat × Nat) :=
  match l[i]? with
  | some s => if s.toBeCalled ≠ TIMER_DEFCALL_DONTRUN
              then some (i, s.callback.getD 0) else none
  | none => none

/-- Modelled from the spec: the evaluation routine run (section 4.2) at
external time t.  Phase 1 marks every due slot over a single pass; phase
2 walks the table in index order 0..N-1, dispatching the callback of each
marked slot, clearing the mark and freeing the run-and-delete slots,
which lowers the in-use counter by the number of freed slots.  The result
pairs the new pool state with the dispatch log of this pass, in dispatch
order. -/
def run (t : Nat) (st : NRF52_ISR_Timer) : NRF52_ISR_Timer × List (Nat × Nat) :=
  let l1 := st.timer.map (tick1 (t % W))
  ({ timer := l1.map tick2
     numTimers :=
       st.numTimers - (l1.countP (fun s => s.toBeCalled == TIMER_DEFCALL_RUNANDDEL) : Int) },
   (List.range l1.length).filterMap (dueMark l1))

/-- Repeated evaluation passes: runs the routine once per listed time, in
order, concatenating the dispatch logs. -/
def runs (ts : List Nat) (st : NRF52_ISR_Timer) :
    NRF52_ISR_Timer × List (Nat × Nat) :=
  match ts with
  | [] => (st, [])
  | t :: rest =>
      let p := run t st
      let q := runs rest p.1
      (q.1, p.2 ++ q.2)

/-- Number of dispatch events of a log that belong to slot id i. -/
def countFor (i : Nat) (log : List (Nat × Nat)) : Nat :=
  log.countP (fun e => e.1 == i)

/-- Number of in-use slots of a table (slots with a non-NULL callback). -/
def countInUse (l : List timer_t) : Nat :=
  l.countP (fun s => s.callback.isSome)

/-- The pool representation invariant: the table has the fixed capacity
and the numTimers counter equals the number of in-use slots. -/
def Inv (st : NRF52_ISR_Timer) : Prop :=
  st.timer.length = MAX_NUMBER_TIMERS ∧
  st.numTimers = (countInUse st.timer : Int)

/-- An admission request: external time, interval, callback identifier
(non-NULL by construction), opaque parameter, callback shape flag and
run budget. -/
structure AdmitReq where
  t : Nat
  d : Nat
  cb : Nat
  p : Nat
  hp : Bool
  n : Nat

/-- Perform one admission request through setupTimer. -/
def doAdmit (r : AdmitReq) (st : NRF52_ISR_Timer) : Int × NRF52_ISR_Timer :=
  setupTimer r.t r.d (some r.cb) r.p r.hp r.n st

/-- Perform a list of admission requests in order, recording whether
every one of them succeeded (returned a non-negative slot id). -/
def admitAll : List AdmitReq → NRF52_ISR_Timer → NRF52_ISR_Timer × Bool
  | [], st => (st, true)
  | r :: rs, st =>
      let x := doAdmit r st
      let y := admitAll rs x.2
      (y.1, (decide (0 ≤ x.1)) && y.2)

/-- States of the pool reachable from initialization through the public
operations and the evaluation routine. -/
inductive Reachable : NRF52_ISR_Timer → Prop
  | init : Reachable initState
  | setup (t d : Nat) (f : Option Nat) (p : Nat) (hp : Bool) (n : Nat)
      {st : NRF52_ISR_Timer} (h : Reachable st) :
      Reachable (setupTimer t d f p hp n st).2
  | change (t id d : Nat) {st : NRF52_ISR_Timer} (h : Reachable st) :
      Reachable (changeInterval t id d st).2
  | delete (id : Nat) {st : NRF52_ISR_Timer} (h : Reachable st) :
      Reachable (deleteTimer id st)
  | restart (t id : Nat) {st : NRF52_ISR_Timer} (h : Reachable st) :
      Reachable (restartTimer t id st)
  | enol (id : Nat) {st : NRF52_ISR_Timer} (h : Reachable st) :
      Reachable (enable id st)
  | disol (id : Nat) {st : NRF52_ISR_Timer} (h : Reachable st) :
      Reachable (disable id st)
  | tog (id : Nat) {st : NRF52_ISR_Timer} (h : Reachable st) :
      Reachable (toggle id st)
  | enall {st : NRF52_ISR_Timer} (h : Reachable st) :
      Reachable (enableAll st)
  | disall {st : NRF52_ISR_Timer} (h : Reachable st) :
      Reachable (disableAll st)
  | step (t : Nat) {st : NRF52_ISR_Timer} (h : Reachable st) :
      Reachable (run t st).1

end NRF52_ISR_Timer

/-!
Helper lemmas.  The slot-level description of the evaluation routine:
what phase 1 does to one slot, what phase 2 does to one slot, and how the
dispatch log of one pass looks per index.
-/

namespace NRF52_ISR_Timer

lemma tick1_fire {t : Nat} {s : timer_t}
    (h : s.callback.isSome ∧ s.enabled ∧ s.delay ≤ elapsedTime t s.prev_millis) :
    tick1 t s =
      { s with
        prev_millis := t
        numRuns := s.numRuns + 1
        toBeCalled :=
          if s.maxNumRuns = TIMER_RUN_FOREVER ∨ s.numRuns + 1 < s.maxNumRuns
          then TIMER_DEFCALL_RUNONLY else TIMER_DEFCALL_RUNANDDEL } := by
  unfold tick1
  rw [if_pos h]

lemma tick1_skip {t : Nat} {s : timer_t}
    (h : ¬ (s.callback.isSome ∧ s.enabled ∧ s.delay ≤ elapsedTime t s.prev_millis)) :
    tick1 t s = { s with toBeCalled := TIMER_DEFCALL_DONTRUN } := by
  unfold tick1
  rw [if_neg h]

lemma tick1_callback (t : Nat) (s : timer_t) : (tick1 t s).callback = s.callback := by
  unfold tick1
  split <;> rfl

lemma tick1_enabled (t : Nat) (s : timer_t) : (tick1 t s).enabled = s.enabled := by
  unfold tick1
  split <;> rfl

lemma tick1_delay (t : Nat) (s : timer_t) : (tick1 t s).delay = s.delay := by
  unfold tick1
  split <;> rfl

lemma tick1_maxNumRuns (t : Nat) (s : timer_t) :
    (tick1 t s).maxNumRuns = s.maxNumRuns := by
  unfold tick1
  split <;> rfl

lemma tick1_toBeCalled_runAndDel {t : Nat} {s : timer_t}
    (h : (tick1 t s).toBeCalled = TIMER_DEFCALL_RUNANDDEL) :
    (tick1 t s).callback.isSome := by
  rw [tick1_callback]
  unfold tick1 at h
  by_cases hc : s.callback.isSome ∧ s.enabled ∧ s.delay ≤ elapsedTime t s.prev_millis
  · exact hc.1
  · rw [if_neg hc] at h
    exact absurd h (by simp [TIMER_DEFCALL_DONTRUN, TIMER_DEFCALL_RUNANDDEL])

lemma tick2_del {s : timer_t} (h : s.toBeCalled = TIMER_DEFCALL_RUNANDDEL) :
    tick2 s = emptySlot := by
  unfold tick2
  rw [if_pos h]

lemma tick2_keep {s : timer_t} (h : ¬ s.toBeCalled = TIMER_DEFCALL_RUNANDDEL) :
    tick2 s = { s with toBeCalled := TIMER_DEFCALL_DONTRUN } := by
  unfold tick2
  rw [if_neg h]

lemma run_state_timer (t : Nat) (st : NRF52_ISR_Timer) :
    (run t st).1.timer = (st.timer.map (tick1 (t % W))).map tick2 := rfl

lemma run_state_numTimers (t : Nat) (st : NRF52_ISR_Timer) :
    (run t st).1.numTimers =
      st.numTimers -
        ((st.timer.map (tick1 (t % W))).countP
          (fun s => s.toBeCalled == TIMER_DEFCALL_RUNANDDEL) : Int) := rfl

lemma run_log (t : Nat) (st : NRF52_ISR_Timer) :
    (run t st).2 =
      (List.range st.timer.length).filterMap
        (dueMark (st.timer.map (tick1 (t % W)))) := by
  simp [run]

lemma run_timer_getElem? (t : Nat) (st : NRF52_ISR_Timer) (i : Nat) :
    ((run t st).1.timer)[i]? =
      Option.map (fun s => tick2 (tick1 (t % W) s)) st.timer[i]? := by
  rw [run_state_timer]
  simp only [List.getElem?_map, Option.map_map]
  rfl

lemma run_timer_length (t : Nat) (st : NRF52_ISR_Timer) :
    (run t st).1.timer.length = st.timer.length := by
  rw [run_state_timer]
  simp

lemma dueMark_fst {l : List timer_t} {j : Nat} {e : Nat × Nat}
    (h : dueMark l j = some e) : e.1 = j := by
  rcases hl : l[j]? with _ | s
  · simp [dueMark, hl] at h
  · simp only [dueMark, hl] at h
    by_cases hs : s.toBeCalled ≠ TIMER_DEFCALL_DONTRUN
    · rw [if_pos hs] at h
      cases h
      rfl
    · rw [if_neg hs] at h
      cases h

lemma dueMark_of_getElem? {l : List timer_t} {i : Nat} {s : timer_t}
    (h : l[i]? = some s) :
    dueMark l i =
      if s.toBeCalled ≠ TIMER_DEFCALL_DONTRUN then some (i, s.callback.getD 0)
      else none := by
  simp [dueMark, h]

lemma dueMark_isSome_lt {l : List timer_t} {i : Nat}
    (h : (dueMark l i).isSome) : i < l.length := by
  by_contra hi
  have : l[i]? = none := by
    rw [List.getElem?_eq_none_iff]
    omega
  simp [dueMark, this] at h

lemma countFor_append (i : Nat) (a b : List (Nat × Nat)) :
    countFor i (a ++ b) = countFor i a + countFor i b := by
  unfold countFor
  exact List.countP_append _ _ _

lemma countFor_filterMap_dueMark (l : List timer_t) (i : Nat) (n : Nat) :
    countFor i ((List.range n).filterMap (dueMark l)) =
      if i < n ∧ (dueMark l i).isSome then 1 else 0 := by
  induction n with
  | zero => simp [countFor]
  | succ n ih =>
    rw [List.range_succ, List.filterMap_append, countFor_append, ih]
    have hsing : countFor i (List.filterMap (dueMark l) [n]) =
        if i = n ∧ (dueMark l n).isSome then 1 else 0 := by
      rcases hd : dueMark l n with _ | e
      · simp [countFor, hd]
      · have he : e.1 = n := dueMark_fst hd
        simp only [List.filterMap_cons, List.filterMap_nil, hd]
        unfold countFor
        rw [List.countP_singleton]
        by_cases hin : i = n
        · subst hin
          simp [he, hd]
        · have : (e.1 == i) = false := by
            simp [he]
            omega
          simp [this, hin]
    rw [hsing]
    by_cases hin : i = n
    · subst hin
      simp [Nat.lt_irrefl, Nat.lt_succ_self]
    · have hiff : i < n + 1 ↔ i < n := by omega
      simp [hin, hiff]

lemma countFor_run (t : Nat) (st : NRF52_ISR_Timer) (i : Nat) :
    countFor i (run t st).2 =
      if (dueMark (st.timer.map (tick1 (t % W))) i).isSome then 1 else 0 := by
  rw [run_log, countFor_filterMap_dueMark]
  by_cases hs : (dueMark (st.timer.map (tick1 (t % W))) i).isSome
  · have hlt : i < st.timer.length := by
      have := dueMark_isSome_lt hs
      simpa using this
    simp [hs, hlt]
  · simp [hs]

end NRF52_ISR_Timer

namespace NRF52_ISR_Timer

lemma findFirstFreeSlot_nonneg_or (l : List timer_t) :
    findFirstFreeSlot l = -1 ∨ 0 ≤ findFirstFreeSlot l := by
  rcases h : l.findIdx? (fun s => s.callback.isNone) with _ | i
  · left
    simp [findFirstFreeSlot, h]
  · right
    simp only [findFirstFreeSlot, h]
    exact Int.ofNat_nonneg i

lemma setupTimer_of_none (t d : Nat) (p : Nat) (hp : Bool) (n : Nat)
    (st : NRF52_ISR_Timer) :
    setupTimer t d none p hp n st = (-1, st) := by
  simp [setupTimer]

lemma setupTimer_of_full (t d : Nat) (f : Option Nat) (p : Nat) (hp : Bool)
    (n : Nat) (st : NRF52_ISR_Timer) (h : findFirstFreeSlot st.timer = -1) :
    setupTimer t d f p hp n st = (-1, st) := by
  unfold setupTimer
  by_cases hf : f.isNone
  · rw [if_pos hf]
  · rw [if_neg hf]
    simp only [h]
    norm_num

lemma setupTimer_of_success (t d : Nat) (f : Option Nat) (c : Nat) (p : Nat)
    (hp : Bool) (n : Nat) (st : NRF52_ISR_Timer) (hf : f = some c)
    (hfree : findFirstFreeSlot st.timer ≠ -1) :
    (setupTimer t d f p hp n st).1 = findFirstFreeSlot st.timer ∧
    0 ≤ (setupTimer t d f p hp n st).1 := by
  have h0 : 0 ≤ findFirstFreeSlot st.timer :=
    (findFirstFreeSlot_nonneg_or st.timer).resolve_left hfree
  unfold setupTimer
  subst hf
  simp only [Option.isNone_some, Bool.false_eq_true, if_false]
  rw [if_neg (by omega)]
  exact ⟨rfl, h0⟩

end NRF52_ISR_Timer

open NRF52_ISR_Timer in
/-- C10: before init() has run, the member numTimers holds the sentinel
-1 (per the header comment), so getNumAvailableTimers() on the freshly
constructed pool returns MAX_NUMBER_TIMERS - (-1) = 17, which exceeds
the capacity 16; after initialization it returns 16, inside the
documented range. -/
theorem claim_C10_uninitialized_available_count :
    uninit.numTimers = -1 ∧
    getNumAvailableTimers uninit = (MAX_NUMBER_TIMERS : Int) - (-1) ∧
    getNumAvailableTimers uninit = 17 ∧
    (MAX_NUMBER_TIMERS : Int) < getNumAvailableTimers uninit ∧
    getNumAvailableTimers initState = (MAX_NUMBER_TIMERS : Int) := by
  refine ⟨rfl, ?_, ?_, ?_, ?_⟩ <;> decide

open NRF52_ISR_Timer in
/-- C4: in phase 1 of the evaluation routine run(), every in-use, enabled
slot whose wraparound-safe elapsed time since its last fire has reached
its interval gets its prev_millis (lastFireTime) field set to exactly the
current time as read at the start of the pass, not to an ideal multiple
of the interval. -/
theorem claim_C4_phase1_reanchors_to_actual_fire_time
    (t : Nat) (st : NRF52_ISR_Timer) (i : Nat) (s : timer_t)
    (h : st.timer[i]? = some s) (hin : s.callback.isSome)
    (hen : s.enabled = true)
    (hdue : s.delay ≤ elapsedTime (t % W) s.prev_millis) :
    (st.timer.map (tick1 (t % W)))[i]? = some (tick1 (t % W) s) ∧
    (tick1 (t % W) s).prev_millis = t % W := by
  constructor
  · rw [List.getElem?_map, h]
    rfl
  · rw [tick1_fire ⟨hin, by rw [hen], hdue⟩]

open NRF52_ISR_Timer in
/-- Witness for C4 at a concrete pool: one slot admitted at time 0 with
interval 5, evaluated at time 5. -/
theorem claim_C4_witness :
    ((setInterval 0 5 (some 3) initState).2.timer.map (tick1 (5 % W)))[0]? =
      some (tick1 (5 % W)
        { prev_millis := 0
          callback := some 3
          param := 0
          hasParam := false
          delay := 5
          maxNumRuns := 0
          numRuns := 0
          enabled := true
          toBeCalled := 0 }) ∧
    (tick1 (5 % W)
        { prev_millis := 0
          callback := some 3
          param := 0
          hasParam := false
          delay := 5
          maxNumRuns := 0
          numRuns := 0
          enabled := true
          toBeCalled := 0 }).prev_millis = 5 % W :=
  claim_C4_phase1_reanchors_to_actual_fire_time 5
    (setInterval 0 5 (some 3) initState).2 0 _ (by decide) (by decide)
    (by decide) (by decide)

open NRF52_ISR_Timer in
/-- C3: every registration operation (setInterval, setTimeout, setTimer,
in both callback shapes) returns the sentinel -1 with the pool state
unchanged whenever the supplied callback is NULL or no free slot exists,
and on success returns the claimed slot index (the first free index,
a non-negative id). -/
theorem claim_C3_registration_sentinel_and_failure_paths
    (t d p n : Nat) (f : Option Nat) (st : NRF52_ISR_Timer) :
    (f = none →
      setInterval t d f st = (-1, st) ∧
      setInterval_p t d f p st = (-1, st) ∧
      setTimeout t d f st = (-1, st) ∧
      setTimeout_p t d f p st = (-1, st) ∧
      setTimer t d f n st = (-1, st) ∧
      setTimer_p t d f p n st = (-1, st)) ∧
    (findFirstFreeSlot st.timer = -1 →
      setInterval t d f st = (-1, st) ∧
      setInterval_p t d f p st = (-1, st) ∧
      setTimeout t d f st = (-1, st) ∧
      setTimeout_p t d f p st = (-1, st) ∧
      setTimer t d f n st = (-1, st) ∧
      setTimer_p t d f p n st = (-1, st)) ∧
    (∀ c : Nat, f = some c → findFirstFreeSlot st.timer ≠ -1 →
      ((setInterval t d f st).1 = findFirstFreeSlot st.timer ∧
        0 ≤ (setInterval t d f st).1) ∧
      ((setInterval_p t d f p st).1 = findFirstFreeSlot st.timer ∧
        0 ≤ (setInterval_p t d f p st).1) ∧
      ((setTimeout t d f st).1 = findFirstFreeSlot st.timer ∧
        0 ≤ (setTimeout t d f st).1) ∧
      ((setTimeout_p t d f p st).1 = findFirstFreeSlot st.timer ∧
        0 ≤ (setTimeout_p t d f p st).1) ∧
      ((setTimer t d f n st).1 = findFirstFreeSlot st.timer ∧
        0 ≤ (setTimer t d f n st).1) ∧
      ((setTimer_p t d f p n st).1 = findFirstFreeSlot st.timer ∧
        0 ≤ (setTimer_p t d f p n st).1)) := by
  refine ⟨?_, ?_, ?_⟩
  · rintro rfl
    exact ⟨setupTimer_of_none _ _ _ _ _ _, setupTimer_of_none _ _ _ _ _ _,
      setupTimer_of_none _ _ _ _ _ _, setupTimer_of_none _ _ _ _ _ _,
      setupTimer_of_none _ _ _ _ _ _, setupTimer_of_none _ _ _ _ _ _⟩
  · intro hfull
    exact ⟨setupTimer_of_full _ _ _ _ _ _ _ hfull,
      setupTimer_of_full _ _ _ _ _ _ _ hfull,
      setupTimer_of_full _ _ _ _ _ _ _ hfull,
      setupTimer_of_full _ _ _ _ _ _ _ hfull,
      setupTimer_of_full _ _ _ _ _ _ _ hfull,
      setupTimer_of_full _ _ _ _ _ _ _ hfull⟩
  · intro c hc hfree
    exact ⟨setupTimer_of_success _ _ _ c _ _ _ _ hc hfree,
      setupTimer_of_success _ _ _ c _ _ _ _ hc hfree,
      setupTimer_of_success _ _ _ c _ _ _ _ hc hfree,
      setupTimer_of_success _ _ _ c _ _ _ _ hc hfree,
      setupTimer_of_success _ _ _ c _ _ _ _ hc hfree,
      setupTimer_of_success _ _ _ c _ _ _ _ hc hfree⟩

open NRF52_ISR_Timer in
/-- Witness for C3: a NULL callback is rejected with -1 and no state
change on the freshly initialized pool. -/
theorem claim_C3_witness :
    setInterval 0 5 none initState = (-1, initState) ∧
    setInterval_p 0 5 none 9 initState = (-1, initState) ∧
    setTimeout 0 5 none initState = (-1, initState) ∧
    setTimeout_p 0 5 none 9 initState = (-1, initState) ∧
    setTimer 0 5 none 2 initState = (-1, initState) ∧
    setTimer_p 0 5 none 9 2 initState = (-1, initState) :=
  (claim_C3_registration_sentinel_and_failure_paths 0 5 9 2 none initState).1 rfl

open NRF52_ISR_Timer in
/-- C6: a slot whose enabled flag is false is never dispatched by run()
while disabled, and such evaluation passes leave its lastFireTime, run
counters and every other scheduling field untouched; re-enabling it
afterwards restores enabled without touching lastFireTime or the
counters, so its next firing is scheduled from lastFireTime as last set
and no catch-up burst occurs. -/
theorem claim_C6_disable_suppression
    (t : Nat) (st : NRF52_ISR_Timer) (i : Nat) (s : timer_t)
    (h : st.timer[i]? = some s) (hdis : s.enabled = false) :
    countFor i (run t st).2 = 0 ∧
    (∃ s', (run t st).1.timer[i]? = some s' ∧
      s'.prev_millis = s.prev_millis ∧ s'.numRuns = s.numRuns ∧
      s'.callback = s.callback ∧ s'.delay = s.delay ∧
      s'.maxNumRuns = s.maxNumRuns ∧ s'.enabled = false) ∧
    (∃ s'', (enable i (run t st).1).timer[i]? = some s'' ∧
      s''.prev_millis = s.prev_millis ∧ s''.numRuns = s.numRuns ∧
      s''.callback = s.callback ∧ s''.delay = s.delay ∧
      s''.maxNumRuns = s.maxNumRuns ∧ s''.enabled = true) := by
  have hcond : ¬ (s.callback.isSome ∧ s.enabled ∧
      s.delay ≤ elapsedTime (t % W) s.prev_millis) := by
    rintro ⟨-, he, -⟩
    rw [hdis] at he
    cases he
  have h1 : tick1 (t % W) s = { s with toBeCalled := TIMER_DEFCALL_DONTRUN } :=
    tick1_skip hcond
  have hmap : (st.timer.map (tick1 (t % W)))[i]? = some (tick1 (t % W) s) := by
    rw [List.getElem?_map, h]
    rfl
  have hcount : countFor i (run t st).2 = 0 := by
    rw [countFor_run, dueMark_of_getElem? hmap, h1]
    simp [TIMER_DEFCALL_DONTRUN]
  have h2 : tick2 (tick1 (t % W) s) =
      { s with toBeCalled := TIMER_DEFCALL_DONTRUN } := by
    rw [h1, tick2_keep]
    simp [TIMER_DEFCALL_DONTRUN, TIMER_DEFCALL_RUNANDDEL]
  have hs' : (run t st).1.timer[i]? =
      some { s with toBeCalled := TIMER_DEFCALL_DONTRUN } := by
    rw [run_timer_getElem?, h]
    simp [h2]
  have hlen : i < (run t st).1.timer.length := by
    rcases List.getElem?_eq_some.mp hs' with ⟨hl, -⟩
    exact hl
  refine ⟨hcount, ⟨_, hs', rfl, rfl, rfl, rfl, rfl, hdis⟩, ?_⟩
  refine ⟨{ s with toBeCalled := TIMER_DEFCALL_DONTRUN, enabled := true }, ?_,
    rfl, rfl, rfl, rfl, rfl, rfl⟩
  simp only [enable, hs']
  simp [List.getElem?_set, hlen]

open NRF52_ISR_Timer in
/-- Witness for C6 at a concrete pool: one slot admitted then disabled,
evaluated at time 100. -/
theorem claim_C6_witness :
    countFor 0 (run 100 (disable 0 (setInterval 0 5 (some 3) initState).2)).2 = 0 ∧
    (∃ s', (run 100 (disable 0 (setInterval 0 5 (some 3) initState).2)).1.timer[0]? =
        some s' ∧
      s'.prev_millis = 0 ∧ s'.numRuns = 0 ∧
      s'.callback = some 3 ∧ s'.delay = 5 ∧
      s'.maxNumRuns = 0 ∧ s'.enabled = false) ∧
    (∃ s'', (enable 0 (run 100 (disable 0 (setInterval 0 5 (some 3) initState).2)).1).timer[0]? =
        some s'' ∧
      s''.prev_millis = 0 ∧ s''.numRuns = 0 ∧
      s''.callback = some 3 ∧ s''.delay = 5 ∧
      s''.maxNumRuns = 0 ∧ s''.enabled = true) :=
  claim_C6_disable_suppression 100
    (disable 0 (setInterval 0 5 (some 3) initState).2) 0
    { prev_millis := 0
      callback := some 3
      param := 0
      hasParam := false
      delay := 5
      maxNumRuns := 0
      numRuns := 0
      enabled := false
      toBeCalled := 0 } (by decide) (by decide)

open NRF52_ISR_Timer in
/-- C8: deleteTimer is idempotent and defensive: on an out-of-range id or
an already-free slot it changes nothing; on an in-use id it resets the
slot to the empty free state regardless of its enabled or pending state,
leaves every other slot unchanged and lowers getNumTimers by one; and a
second call on the same id changes nothing further. -/
theorem claim_C8_deleteTimer_idempotent_defensive
    (st : NRF52_ISR_Timer) (id : Nat) :
    (st.timer[id]? = none → deleteTimer id st = st) ∧
    (∀ s, st.timer[id]? = some s → s.callback = none → deleteTimer id st = st) ∧
    (∀ s, st.timer[id]? = some s → s.callback.isSome →
      (deleteTimer id st).timer[id]? = some emptySlot ∧
      (∀ j, j ≠ id → (deleteTimer id st).timer[j]? = st.timer[j]?) ∧
      (deleteTimer id st).numTimers = st.numTimers - 1 ∧
      getNumTimers (deleteTimer id st) = getNumTimers st - 1) ∧
    deleteTimer id (deleteTimer id st) = deleteTimer id st := by
  have hnone : st.timer[id]? = none → deleteTimer id st = st := by
    intro h
    simp [deleteTimer, h]
  have hfree : ∀ s, st.timer[id]? = some s → s.callback = none →
      deleteTimer id st = st := by
    intro s h hcb
    simp [deleteTimer, h, hcb]
  have hdel : ∀ s, st.timer[id]? = some s → s.callback.isSome →
      deleteTimer id st =
        { timer := st.timer.set id emptySlot
          numTimers := st.numTimers - 1 } := by
    intro s h hcb
    simp [deleteTimer, h, hcb]
  refine ⟨hnone, hfree, ?_, ?_⟩
  · intro s h hcb
    have hlen : id < st.timer.length := (List.getElem?_eq_some.mp h).1
    rw [hdel s h hcb]
    refine ⟨?_, ?_, rfl, rfl⟩
    · simp [List.getElem?_set, hlen]
    · intro j hj
      simp [List.getElem?_set, (Ne.symm hj : id ≠ j)]
  · rcases hopt : st.timer[id]? with _ | s
    · rw [hnone hopt, hnone hopt]
    · by_cases hcb : s.callback.isSome
      · have hlen : id < st.timer.length := (List.getElem?_eq_some.mp hopt).1
        rw [hdel s hopt hcb]
        simp [deleteTimer, List.getElem?_set, hlen, emptySlot]
      · have hcn : s.callback = none := Option.not_isSome_iff_eq_none.mp hcb
        rw [hfree s hopt hcn, hfree s hopt hcn]

open NRF52_ISR_Timer in
/-- Witness for C8 at a concrete pool: one admitted slot deleted twice,
and a deletion of a never-used id. -/
theorem claim_C8_witness :
    ((setInterval 0 5 (some 3) initState).2.timer[5]? = none →
      deleteTimer 5 (setInterval 0 5 (some 3) initState).2 =
        (setInterval 0 5 (some 3) initState).2) ∧
    deleteTimer 0 (deleteTimer 0 (setInterval 0 5 (some 3) initState).2) =
      deleteTimer 0 (setInterval 0 5 (some 3) initState).2 :=
  ⟨(claim_C8_deleteTimer_idempotent_defensive
      (setInterval 0 5 (some 3) initState).2 5).1,
   (claim_C8_deleteTimer_idempotent_defensive
      (setInterval 0 5 (some 3) initState).2 0).2.2.2⟩

open NRF52_ISR_Timer in
/-- C7: on an in-use slot, changeInterval(id, d) succeeds, sets the
interval to d and resets lastFireTime to the current time, leaving
callback, parameter, run counters and enabled state unchanged; an
evaluation before d has elapsed since the change fires nothing for that
slot, and an evaluation once d has elapsed (slot enabled) fires it
exactly once in that pass. -/
theorem claim_C7_changeInterval_resets_phase
    (t id d : Nat) (st : NRF52_ISR_Timer) (s : timer_t)
    (h : st.timer[id]? = some s) (hin : s.callback.isSome) :
    (changeInterval t id d st).1 = true ∧
    ∃ s', (changeInterval t id d st).2.timer[id]? = some s' ∧
      s'.delay = d ∧ s'.prev_millis = t % W ∧
      s'.callback = s.callback ∧ s'.param = s.param ∧
      s'.hasParam = s.hasParam ∧ s'.maxNumRuns = s.maxNumRuns ∧
      s'.numRuns = s.numRuns ∧ s'.enabled = s.enabled ∧
      (∀ u : Nat, elapsedTime (u % W) (t % W) < d →
        countFor id (run u (changeInterval t id d st).2).2 = 0) ∧
      (∀ u : Nat, s.enabled = true → d ≤ elapsedTime (u % W) (t % W) →
        countFor id (run u (changeInterval t id d st).2).2 = 1) := by
  have hlen : id < st.timer.length := (List.getElem?_eq_some.mp h).1
  have hch : changeInterval t id d st =
      (true,
        { timer := st.timer.set id { s with delay := d, prev_millis := t % W }
          numTimers := st.numTimers }) := by
    simp [changeInterval, h, hin]
  refine ⟨by rw [hch], { s with delay := d, prev_millis := t % W }, ?_,
    rfl, rfl, rfl, rfl, rfl, rfl, rfl, rfl, ?_, ?_⟩
  · rw [hch]
    simp [List.getElem?_set, hlen]
  · intro u hu
    have hmap : ((changeInterval t id d st).2.timer.map (tick1 (u % W)))[id]? =
        some (tick1 (u % W) { s with delay := d, prev_millis := t % W }) := by
      rw [hch]
      simp [List.getElem?_map, List.getElem?_set, hlen]
    have hskip : tick1 (u % W) { s with delay := d, prev_millis := t % W } =
        { { s with delay := d, prev_millis := t % W } with
          toBeCalled := TIMER_DEFCALL_DONTRUN } := by
      apply tick1_skip
      rintro ⟨-, -, hdue⟩
      have hdue2 : d ≤ elapsedTime (u % W) (t % W) := hdue
      omega
    rw [countFor_run, dueMark_of_getElem? hmap, hskip]
    simp [TIMER_DEFCALL_DONTRUN]
  · intro u hen hdue
    have hmap : ((changeInterval t id d st).2.timer.map (tick1 (u % W)))[id]? =
        some (tick1 (u % W) { s with delay := d, prev_millis := t % W }) := by
      rw [hch]
      simp [List.getElem?_map, List.getElem?_set, hlen]
    have hfire : tick1 (u % W) { s with delay := d, prev_millis := t % W } =
        { { s with delay := d, prev_millis := t % W } with
          prev_millis := u % W
          numRuns := s.numRuns + 1
          toBeCalled :=
            if s.maxNumRuns = TIMER_RUN_FOREVER ∨ s.numRuns + 1 < s.maxNumRuns
            then TIMER_DEFCALL_RUNONLY else TIMER_DEFCALL_RUNANDDEL } := by
      exact tick1_fire ⟨hin, hen, hdue⟩
    rw [countFor_run, dueMark_of_getElem? hmap, hfire]
    split
    · simp [TIMER_DEFCALL_DONTRUN, TIMER_DEFCALL_RUNONLY]
    · simp [TIMER_DEFCALL_DONTRUN, TIMER_DEFCALL_RUNANDDEL]

open NRF52_ISR_Timer in
/-- Witness for C7 at a concrete pool: the admitted slot accepts an
interval change. -/
theorem claim_C7_witness :
    (changeInterval 5 0 10 (setInterval 0 5 (some 3) initState).2).1 = true :=
  (claim_C7_changeInterval_resets_phase 5 0 10
    (setInterval 0 5 (some 3) initState).2
    { prev_millis := 0
      callback := some 3
      param := 0
      hasParam := false
      delay := 5
      maxNumRuns := 0
      numRuns := 0
      enabled := true
      toBeCalled := 0 } (by decide) (by decide)).1

namespace NRF52_ISR_Timer

lemma log_fst_pairwise (t : Nat) (st : NRF52_ISR_Timer) :
    ((run t st).2.map Prod.fst).Pairwise (· < ·) := by
  rw [run_log, List.pairwise_map, List.pairwise_filterMap]
  refine (List.pairwise_lt_range _).imp ?_
  intro a b hab e he e1 he1
  rw [Option.mem_def] at he he1
  rw [dueMark_fst he, dueMark_fst he1]
  exact hab

lemma mem_log_of_due (t : Nat) (st : NRF52_ISR_Timer) (i : Nat) (si : timer_t)
    (h : st.timer[i]? = some si)
    (hdue : (tick1 (t % W) si).toBeCalled ≠ TIMER_DEFCALL_DONTRUN) :
    i ∈ (run t st).2.map Prod.fst := by
  have hmap : (st.timer.map (tick1 (t % W)))[i]? = some (tick1 (t % W) si) := by
    rw [List.getElem?_map, h]
    rfl
  have hc : countFor i (run t st).2 = 1 := by
    rw [countFor_run, dueMark_of_getElem? hmap]
    simp [hdue]
  have hpos : 0 < (run t st).2.countP (fun e => e.1 == i) := by
    unfold countFor at hc
    omega
  rcases List.countP_pos_iff.mp hpos with ⟨e, hel, hei⟩
  have hfst : e.1 = i := by simpa using hei
  exact hfst ▸ List.mem_map_of_mem Prod.fst hel

lemma indexOf_lt_of_pairwise {i j : Nat} :
    ∀ (l : List Nat), l.Pairwise (· < ·) → i ∈ l → j ∈ l → i < j →
      l.indexOf i < l.indexOf j := by
  intro l
  induction l with
  | nil =>
    intro _ hi
    cases hi
  | cons a l ih =>
    intro hp hi hj hij
    rcases List.pairwise_cons.mp hp with ⟨ha, hp1⟩
    by_cases hai : a = i
    · subst hai
      have haj : (a == j) = false := by
        simp only [beq_eq_false_iff_ne, ne_eq]
        omega
      rw [List.indexOf_cons, List.indexOf_cons, haj]
      simp
    · have hil : i ∈ l := by
        rcases List.mem_cons.mp hi with h1 | h1
        · exact absurd h1.symm hai
        · exact h1
      have haj : a ≠ j := by
        intro he
        subst he
        have := ha i hil
        omega
      have hjl : j ∈ l := by
        rcases List.mem_cons.mp hj with h1 | h1
        · exact absurd h1.symm haj
        · exact h1
      have hbi : (a == i) = false := by
        simp only [beq_eq_false_iff_ne, ne_eq]
        exact hai
      have hbj : (a == j) = false := by
        simp only [beq_eq_false_iff_ne, ne_eq]
        exact haj
      rw [List.indexOf_cons, List.indexOf_cons, hbi, hbj]
      simp only [cond_false]
      have := ih hp1 hil hjl hij
      omega

end NRF52_ISR_Timer

open NRF52_ISR_Timer in
/-- C5: within a single run() pass the sequence of dispatched slot ids is
strictly increasing (index order 0..N-1); in particular, for two slots at
indices i less than j that are both marked due in phase 1, the dispatch
of i precedes the dispatch of j in the log of that pass. -/
theorem claim_C5_dispatch_index_order (t : Nat) (st : NRF52_ISR_Timer) :
    ((run t st).2.map Prod.fst).Pairwise (· < ·) ∧
    (∀ i j si sj, i < j →
      st.timer[i]? = some si → st.timer[j]? = some sj →
      (tick1 (t % W) si).toBeCalled ≠ TIMER_DEFCALL_DONTRUN →
      (tick1 (t % W) sj).toBeCalled ≠ TIMER_DEFCALL_DONTRUN →
      ((run t st).2.map Prod.fst).indexOf i <
        ((run t st).2.map Prod.fst).indexOf j) := by
  refine ⟨log_fst_pairwise t st, ?_⟩
  intro i j si sj hij hi hj hdi hdj
  exact indexOf_lt_of_pairwise _ (log_fst_pairwise t st)
    (mem_log_of_due t st i si hi hdi) (mem_log_of_due t st j sj hj hdj) hij

open NRF52_ISR_Timer in
/-- Witness for C5 at a concrete pool: two slots admitted at time 0 with
interval 5, both due at time 5, dispatch index 0 before index 1. -/
theorem claim_C5_witness :
    ((run 5 (setInterval 0 5 (some 4)
        (setInterval 0 5 (some 3) initState).2).2).2.map Prod.fst).indexOf 0 <
      ((run 5 (setInterval 0 5 (some 4)
        (setInterval 0 5 (some 3) initState).2).2).2.map Prod.fst).indexOf 1 :=
  (claim_C5_dispatch_index_order 5
    (setInterval 0 5 (some 4) (setInterval 0 5 (some 3) initState).2).2).2
    0 1
    { prev_millis := 0
      callback := some 3
      param := 0
      hasParam := false
      delay := 5
      maxNumRuns := 0
      numRuns := 0
      enabled := true
      toBeCalled := 0 }
    { prev_millis := 0
      callback := some 4
      param := 0
      hasParam := false
      delay := 5
      maxNumRuns := 0
      numRuns := 0
      enabled := true
      toBeCalled := 0 }
    (by decide) (by decide) (by decide) (by decide) (by decide)

namespace NRF52_ISR_Timer

lemma exists_free_of_lt {l : List timer_t} (h : countInUse l < l.length) :
    ∃ i, l.findIdx? (fun s => s.callback.isNone) = some i := by
  rcases hf : l.findIdx? (fun s => s.callback.isNone) with _ | i
  · exfalso
    have hall := List.findIdx?_eq_none_iff.mp hf
    have hlen : countInUse l = l.length := by
      unfold countInUse
      apply List.countP_eq_length.mpr
      intro a ha
      have hna := hall a ha
      cases hcb : a.callback
      · rw [hcb] at hna
        simp at hna
      · simp [hcb]
    omega
  · exact ⟨i, hf⟩

lemma findFirstFreeSlot_of_full {l : List timer_t}
    (hfull : countInUse l = l.length) : findFirstFreeSlot l = -1 := by
  have hall : ∀ x ∈ l, (x.callback.isNone) = false := by
    have hS := List.countP_eq_length.mp hfull
    intro x hx
    have := hS x hx
    cases hcb : x.callback
    · rw [hcb] at this
      simp at this
    · simp [hcb]
  unfold findFirstFreeSlot
  rw [List.findIdx?_eq_none_iff.mpr hall]

lemma doAdmit_success {st : NRF52_ISR_Timer} (hInv : Inv st)
    (hlt : countInUse st.timer < MAX_NUMBER_TIMERS) (r : AdmitReq) :
    0 ≤ (doAdmit r st).1 ∧ Inv (doAdmit r st).2 ∧
    countInUse (doAdmit r st).2.timer = countInUse st.timer + 1 := by
  obtain ⟨hlen, hn⟩ := hInv
  have hl : countInUse st.timer < st.timer.length := by omega
  obtain ⟨i, hfi⟩ := exists_free_of_lt hl
  obtain ⟨hilt, hfree, -⟩ := List.findIdx?_eq_some_iff_getElem.mp hfi
  have hff : findFirstFreeSlot st.timer = (i : Int) := by
    simp [findFirstFreeSlot, hfi]
  have heq : doAdmit r st =
      ((i : Int),
        { timer := st.timer.set i
            ⟨r.t % W, some r.cb, r.p, r.hp, r.d, r.n, 0, true,
              TIMER_DEFCALL_DONTRUN⟩
          numTimers := st.numTimers + 1 }) := by
    unfold doAdmit setupTimer
    simp only [Option.isNone_some, Bool.false_eq_true, if_false, hff]
    rw [if_neg (by omega : ¬ ((i : Int) < 0))]
    rw [Int.toNat_natCast]
  have hnotin : (st.timer[i]).callback.isSome = false := by
    have : (st.timer[i]).callback.isNone = true := hfree
    cases hcb : (st.timer[i]).callback
    · simp
    · rw [hcb] at this
      simp at this
  have hcnt : countInUse
      (st.timer.set i
        ⟨r.t % W, some r.cb, r.p, r.hp, r.d, r.n, 0, true,
          TIMER_DEFCALL_DONTRUN⟩) = countInUse st.timer + 1 := by
    unfold countInUse
    rw [List.countP_set _ _ _ _ hilt]
    simp [hnotin]
  rw [heq]
  refine ⟨by positivity, ⟨?_, ?_⟩, hcnt⟩
  · simp [hlen]
  · simp only [hcnt, hn]
    push_cast
    ring

lemma admitAll_fills : ∀ (rs : List AdmitReq) (st : NRF52_ISR_Timer),
    Inv st → countInUse st.timer + rs.length ≤ MAX_NUMBER_TIMERS →
    (admitAll rs st).2 = true ∧ Inv (admitAll rs st).1 ∧
    countInUse (admitAll rs st).1.timer = countInUse st.timer + rs.length := by
  intro rs
  induction rs with
  | nil =>
    intro st hInv hle
    exact ⟨rfl, hInv, by simp [admitAll]⟩
  | cons r rs ih =>
    intro st hInv hle
    rw [List.length_cons] at hle
    have hlt : countInUse st.timer < MAX_NUMBER_TIMERS := by omega
    obtain ⟨hpos, hInv2, hcnt⟩ := doAdmit_success hInv hlt r
    obtain ⟨hok, hInv3, hcnt3⟩ := ih (doAdmit r st).2 hInv2 (by omega)
    refine ⟨?_, ?_, ?_⟩
    · simp [admitAll, hok, hpos]
    · simpa [admitAll] using hInv3
    · rw [show (admitAll (r :: rs) st).1 = (admitAll rs (doAdmit r st).2).1 from rfl]
      rw [hcnt3, hcnt]
      simp only [List.length_cons]
      omega

end NRF52_ISR_Timer

open NRF52_ISR_Timer in
/-- C2: starting from the initialized pool, any 16 admission requests all
succeed and fill the table; in that state the 17th admission call (any
registration operation, any callback) returns the no-free-slot sentinel
-1 without changing the pool, and getNumAvailableTimers() returns 0. -/
theorem claim_C2_capacity_invariant (rs : List AdmitReq)
    (h : rs.length = MAX_NUMBER_TIMERS) :
    (admitAll rs initState).2 = true ∧
    getNumTimers (admitAll rs initState).1 = (MAX_NUMBER_TIMERS : Int) ∧
    getNumAvailableTimers (admitAll rs initState).1 = 0 ∧
    (∀ r : AdmitReq, doAdmit r (admitAll rs initState).1 =
      (-1, (admitAll rs initState).1)) ∧
    (∀ (t d p n : Nat) (f : Option Nat),
      setInterval t d f (admitAll rs initState).1 =
        (-1, (admitAll rs initState).1) ∧
      setInterval_p t d f p (admitAll rs initState).1 =
        (-1, (admitAll rs initState).1) ∧
      setTimeout t d f (admitAll rs initState).1 =
        (-1, (admitAll rs initState).1) ∧
      setTimeout_p t d f p (admitAll rs initState).1 =
        (-1, (admitAll rs initState).1) ∧
      setTimer t d f n (admitAll rs initState).1 =
        (-1, (admitAll rs initState).1) ∧
      setTimer_p t d f p n (admitAll rs initState).1 =
        (-1, (admitAll rs initState).1)) := by
  have hInv0 : Inv initState := ⟨by decide, by decide⟩
  have hcnt0 : countInUse initState.timer = 0 := by decide
  obtain ⟨hok, hInv, hcnt⟩ :=
    admitAll_fills rs initState hInv0 (by rw [hcnt0, h]; omega)
  have hfull : countInUse (admitAll rs initState).1.timer = MAX_NUMBER_TIMERS := by
    rw [hcnt, hcnt0, h]
    omega
  have hnum : (admitAll rs initState).1.numTimers = (MAX_NUMBER_TIMERS : Int) := by
    rw [hInv.2, hfull]
  have hff : findFirstFreeSlot (admitAll rs initState).1.timer = -1 :=
    findFirstFreeSlot_of_full (by rw [hfull, hInv.1])
  refine ⟨hok, hnum, ?_, ?_, ?_⟩
  · unfold getNumAvailableTimers
    rw [hnum]
    decide
  · intro r
    unfold doAdmit
    exact setupTimer_of_full _ _ _ _ _ _ _ hff
  · intro t d p n f
    exact ⟨setupTimer_of_full _ _ _ _ _ _ _ hff,
      setupTimer_of_full _ _ _ _ _ _ _ hff,
      setupTimer_of_full _ _ _ _ _ _ _ hff,
      setupTimer_of_full _ _ _ _ _ _ _ hff,
      setupTimer_of_full _ _ _ _ _ _ _ hff,
      setupTimer_of_full _ _ _ _ _ _ _ hff⟩

open NRF52_ISR_Timer in
/-- Witness for C2: sixteen concrete admissions all succeed, the pool
reports zero available slots, and one more admission is rejected. -/
theorem claim_C2_witness :
    (admitAll (List.replicate 16 ⟨0, 5, 1, 0, false, 0⟩) initState).2 = true ∧
    getNumAvailableTimers
      (admitAll (List.replicate 16 ⟨0, 5, 1, 0, false, 0⟩) initState).1 = 0 ∧
    doAdmit ⟨0, 7, 2, 0, false, 0⟩
      (admitAll (List.replicate 16 ⟨0, 5, 1, 0, false, 0⟩) initState).1 =
      (-1, (admitAll (List.replicate 16 ⟨0, 5, 1, 0, false, 0⟩) initState).1) :=
  ⟨(claim_C2_capacity_invariant _ (by decide)).1,
   (claim_C2_capacity_invariant _ (by decide)).2.2.1,
   (claim_C2_capacity_invariant _ (by decide)).2.2.2.1 ⟨0, 7, 2, 0, false, 0⟩⟩

namespace NRF52_ISR_Timer

lemma countP_set_eq (p : timer_t → Bool) (l : List timer_t) (i : Nat)
    (v : timer_t) (h : i < l.length) (hpv : p v = p l[i]) :
    (l.set i v).countP p = l.countP p := by
  rw [List.countP_set _ _ _ _ h, hpv]
  by_cases hc : p l[i] = true
  · have hpos : 0 < l.countP p :=
      List.countP_pos_iff.mpr ⟨l[i], List.getElem_mem h, hc⟩
    simp [hc]
    omega
  · simp [hc]

lemma Inv_set {st : NRF52_ISR_Timer} {id : Nat} {s v : timer_t}
    (hInv : Inv st) (h : st.timer[id]? = some s)
    (hcb : v.callback.isSome = s.callback.isSome) :
    Inv { timer := st.timer.set id v, numTimers := st.numTimers } := by
  obtain ⟨hlen, hgv⟩ := List.getElem?_eq_some.mp h
  constructor
  · simp [List.length_set, hInv.1]
  · show st.numTimers = (countInUse (st.timer.set id v) : Int)
    unfold countInUse
    rw [countP_set_eq _ _ _ _ hlen (by rw [hgv, hcb])]
    exact hInv.2

lemma setupTimer_inv (t d : Nat) (f : Option Nat) (p : Nat) (hp : Bool)
    (n : Nat) (st : NRF52_ISR_Timer) (hInv : Inv st) :
    Inv (setupTimer t d f p hp n st).2 := by
  rcases f with _ | c
  · rw [setupTimer_of_none]
    exact hInv
  · rcases hfi : st.timer.findIdx? (fun s => s.callback.isNone) with _ | i
    · have hff : findFirstFreeSlot st.timer = -1 := by
        simp [findFirstFreeSlot, hfi]
      rw [setupTimer_of_full _ _ _ _ _ _ _ hff]
      exact hInv
    · obtain ⟨hilt, hfree, -⟩ := List.findIdx?_eq_some_iff_getElem.mp hfi
      have hff : findFirstFreeSlot st.timer = (i : Int) := by
        simp [findFirstFreeSlot, hfi]
      have heq : setupTimer t d (some c) p hp n st =
          ((i : Int),
            { timer := st.timer.set i
                ⟨t % W, some c, p, hp, d, n, 0, true, TIMER_DEFCALL_DONTRUN⟩
              numTimers := st.numTimers + 1 }) := by
        unfold setupTimer
        simp only [Option.isNone_some, Bool.false_eq_true, if_false, hff]
        rw [if_neg (by omega : ¬ ((i : Int) < 0))]
        rw [Int.toNat_natCast]
      rw [heq]
      have hnotin : (st.timer[i]).callback.isSome = false := by
        have hni : (st.timer[i]).callback.isNone = true := hfree
        cases hcb : (st.timer[i]).callback
        · simp
        · rw [hcb] at hni
          simp at hni
      constructor
      · simp [List.length_set, hInv.1]
      · show st.numTimers + 1 = _
        unfold countInUse
        rw [List.countP_set _ _ _ _ hilt]
        simp only [hnotin]
        have := hInv.2
        unfold countInUse at this
        simp
        omega

lemma changeInterval_inv (t id d : Nat) (st : NRF52_ISR_Timer)
    (hInv : Inv st) : Inv (changeInterval t id d st).2 := by
  unfold changeInterval
  rcases h : st.timer[id]? with _ | s
  · exact hInv
  · by_cases hcb : s.callback.isSome
    · simp only [hcb, if_true]
      exact Inv_set hInv h rfl
    · simp only [hcb]
      simp
      exact hInv

lemma deleteTimer_inv (id : Nat) (st : NRF52_ISR_Timer) (hInv : Inv st) :
    Inv (deleteTimer id st) := by
  unfold deleteTimer
  rcases h : st.timer[id]? with _ | s
  · exact hInv
  · by_cases hcb : s.callback.isSome
    · simp only [hcb, if_true]
      obtain ⟨hlen, hgv⟩ := List.getElem?_eq_some.mp h
      have hpos : 0 < countInUse st.timer := by
        apply List.countP_pos_iff.mpr
        exact ⟨s, hgv ▸ List.getElem_mem hlen, hcb⟩
      constructor
      · simp [List.length_set, hInv.1]
      · show st.numTimers - 1 = _
        unfold countInUse
        rw [List.countP_set _ _ _ _ hlen]
        rw [hgv]
        simp only [hcb, if_true, emptySlot]
        have := hInv.2
        unfold countInUse at this hpos
        simp
        omega
    · simp only [hcb]
      simp
      exact hInv

lemma restartTimer_inv (t id : Nat) (st : NRF52_ISR_Timer) (hInv : Inv st) :
    Inv (restartTimer t id st) := by
  unfold restartTimer
  rcases h : st.timer[id]? with _ | s
  · exact hInv
  · exact Inv_set hInv h rfl

lemma enable_inv (id : Nat) (st : NRF52_ISR_Timer) (hInv : Inv st) :
    Inv (enable id st) := by
  unfold enable
  rcases h : st.timer[id]? with _ | s
  · exact hInv
  · exact Inv_set hInv h rfl

lemma disable_inv (id : Nat) (st : NRF52_ISR_Timer) (hInv : Inv st) :
    Inv (disable id st) := by
  unfold disable
  rcases h : st.timer[id]? with _ | s
  · exact hInv
  · exact Inv_set hInv h rfl

lemma toggle_inv (id : Nat) (st : NRF52_ISR_Timer) (hInv : Inv st) :
    Inv (toggle id st) := by
  unfold toggle
  rcases h : st.timer[id]? with _ | s
  · exact hInv
  · exact Inv_set hInv h rfl

lemma countInUse_map_enabled (l : List timer_t) (b : Bool) :
    countInUse (l.map (fun s => { s with enabled := b })) = countInUse l := by
  unfold countInUse
  rw [List.countP_map]
  rfl

lemma enableAll_inv (st : NRF52_ISR_Timer) (hInv : Inv st) :
    Inv (enableAll st) := by
  unfold enableAll
  exact ⟨by simp [hInv.1], by
    show st.numTimers = _
    rw [countInUse_map_enabled]
    exact hInv.2⟩

lemma disableAll_inv (st : NRF52_ISR_Timer) (hInv : Inv st) :
    Inv (disableAll st) := by
  unfold disableAll
  exact ⟨by simp [hInv.1], by
    show st.numTimers = _
    rw [countInUse_map_enabled]
    exact hInv.2⟩

lemma countInUse_map_tick1 (t : Nat) (l : List timer_t) :
    countInUse (l.map (tick1 t)) = countInUse l := by
  unfold countInUse
  rw [List.countP_map]
  apply List.countP_congr
  intro x hx
  simp [Function.comp, tick1_callback]

lemma countInUse_tick2_add (l : List timer_t)
    (hl : ∀ s ∈ l, s.toBeCalled = TIMER_DEFCALL_RUNANDDEL → s.callback.isSome) :
    countInUse (l.map tick2) +
      l.countP (fun s => s.toBeCalled == TIMER_DEFCALL_RUNANDDEL) =
      countInUse l := by
  induction l with
  | nil => rfl
  | cons a l ih =>
    have hl2 : ∀ s ∈ l, s.toBeCalled = TIMER_DEFCALL_RUNANDDEL →
        s.callback.isSome := fun s hs => hl s (List.mem_cons_of_mem _ hs)
    have ih2 := ih hl2
    by_cases ha : a.toBeCalled = TIMER_DEFCALL_RUNANDDEL
    · have hs : a.callback.isSome = true := hl a (List.mem_cons_self _ _) ha
      have e1 : countInUse ((a :: l).map tick2) = countInUse (l.map tick2) := by
        unfold countInUse
        rw [List.map_cons, List.countP_cons, tick2_del ha]
        simp [emptySlot]
      have e2 : (a :: l).countP (fun s => s.toBeCalled == TIMER_DEFCALL_RUNANDDEL) =
          l.countP (fun s => s.toBeCalled == TIMER_DEFCALL_RUNANDDEL) + 1 := by
        rw [List.countP_cons]
        simp [ha]
      have e3 : countInUse (a :: l) = countInUse l + 1 := by
        unfold countInUse
        rw [List.countP_cons]
        simp [hs]
      rw [e1, e2, e3]
      omega
    · have e1 : countInUse ((a :: l).map tick2) =
          countInUse (l.map tick2) + (if a.callback.isSome then 1 else 0) := by
        unfold countInUse
        rw [List.map_cons, List.countP_cons, tick2_keep ha]
      have e2 : (a :: l).countP (fun s => s.toBeCalled == TIMER_DEFCALL_RUNANDDEL) =
          l.countP (fun s => s.toBeCalled == TIMER_DEFCALL_RUNANDDEL) := by
        rw [List.countP_cons]
        simp [ha]
      have e3 : countInUse (a :: l) =
          countInUse l + (if a.callback.isSome then 1 else 0) := by
        unfold countInUse
        rw [List.countP_cons]
      rw [e1, e2, e3]
      omega

lemma run_inv (t : Nat) (st : NRF52_ISR_Timer) (hInv : Inv st) :
    Inv (run t st).1 := by
  constructor
  · rw [run_timer_length]
    exact hInv.1
  · rw [run_state_numTimers, run_state_timer]
    have hl : ∀ s ∈ st.timer.map (tick1 (t % W)),
        s.toBeCalled = TIMER_DEFCALL_RUNANDDEL → s.callback.isSome := by
      intro s hs h2
      rcases List.mem_map.mp hs with ⟨s0, hs0, rfl⟩
      exact tick1_toBeCalled_runAndDel h2
    have hadd := countInUse_tick2_add (st.timer.map (tick1 (t % W))) hl
    have h1 : countInUse (st.timer.map (tick1 (t % W))) = countInUse st.timer :=
      countInUse_map_tick1 _ _
    rw [hInv.2]
    omega

lemma reachable_inv {st : NRF52_ISR_Timer} (h : Reachable st) : Inv st := by
  induction h with
  | init => exact ⟨by decide, by decide⟩
  | setup t d f p hp n h ih => exact setupTimer_inv t d f p hp n _ ih
  | change t id d h ih => exact changeInterval_inv t id d _ ih
  | delete id h ih => exact deleteTimer_inv id _ ih
  | restart t id h ih => exact restartTimer_inv t id _ ih
  | enol id h ih => exact enable_inv id _ ih
  | disol id h ih => exact disable_inv id _ ih
  | tog id h ih => exact toggle_inv id _ ih
  | enall h ih => exact enableAll_inv _ ih
  | disall h ih => exact disableAll_inv _ ih
  | step t h ih => exact run_inv t _ ih

end NRF52_ISR_Timer

open NRF52_ISR_Timer in
/-- C9: in every reachable state of the pool, getNumTimers() equals the
number of in-use slots and getNumAvailableTimers() equals
MAX_NUMBER_TIMERS minus that count; in particular it lies between 0 and
MAX_NUMBER_TIMERS = 16. -/
theorem claim_C9_available_equals_capacity_minus_count
    (st : NRF52_ISR_Timer) (h : Reachable st) :
    getNumTimers st = (countInUse st.timer : Int) ∧
    getNumAvailableTimers st = (MAX_NUMBER_TIMERS : Int) - getNumTimers st ∧
    0 ≤ getNumAvailableTimers st ∧
    getNumAvailableTimers st ≤ (MAX_NUMBER_TIMERS : Int) := by
  obtain ⟨hlen, hn⟩ := reachable_inv h
  have hcle : countInUse st.timer ≤ st.timer.length :=
    List.countP_le_length _
  rw [hlen] at hcle
  have hpow : ((2 : Int) ^ 32) = 4294967296 := by norm_num
  have hmax : (MAX_NUMBER_TIMERS : Int) = 16 := by decide
  have hemod : getNumAvailableTimers st =
      (MAX_NUMBER_TIMERS : Int) - st.numTimers := by
    unfold getNumAvailableTimers
    apply Int.emod_eq_of_lt
    · rw [hn]
      omega
    · rw [hn, hpow, hmax]
      omega
  refine ⟨hn, ?_, ?_, ?_⟩
  · rw [hemod]
    rfl
  · rw [hemod, hn]
    omega
  · rw [hemod, hn, hmax]
    omega

open NRF52_ISR_Timer in
/-- Witness for C9 at the initialized pool, a reachable state. -/
theorem claim_C9_witness :
    getNumTimers initState = (countInUse initState.timer : Int) ∧
    getNumAvailableTimers initState =
      (MAX_NUMBER_TIMERS : Int) - getNumTimers initState ∧
    0 ≤ getNumAvailableTimers initState ∧
    getNumAvailableTimers initState ≤ (MAX_NUMBER_TIMERS : Int) :=
  claim_C9_available_equals_capacity_minus_count initState Reachable.init

namespace NRF52_ISR_Timer

lemma run_slot_nofire {t : Nat} {st : NRF52_ISR_Timer} {i : Nat} {s : timer_t}
    (h : st.timer[i]? = some s)
    (hc : ¬ (s.callback.isSome ∧ s.enabled ∧
      s.delay ≤ elapsedTime (t % W) s.prev_millis)) :
    countFor i (run t st).2 = 0 ∧
    (run t st).1.timer[i]? =
      some { s with toBeCalled := TIMER_DEFCALL_DONTRUN } := by
  have h1 := tick1_skip hc
  have hmap : (st.timer.map (tick1 (t % W)))[i]? = some (tick1 (t % W) s) := by
    rw [List.getElem?_map, h]
    rfl
  constructor
  · rw [countFor_run, dueMark_of_getElem? hmap, h1]
    simp [TIMER_DEFCALL_DONTRUN]
  · rw [run_timer_getElem?, h]
    show some (tick2 (tick1 (t % W) s)) = _
    rw [h1, tick2_keep (by simp [TIMER_DEFCALL_DONTRUN, TIMER_DEFCALL_RUNANDDEL])]

lemma run_slot_fire_keep {t : Nat} {st : NRF52_ISR_Timer} {i : Nat}
    {s : timer_t} (h : st.timer[i]? = some s)
    (hc : s.callback.isSome ∧ s.enabled ∧
      s.delay ≤ elapsedTime (t % W) s.prev_millis)
    (hbud : s.maxNumRuns = TIMER_RUN_FOREVER ∨ s.numRuns + 1 < s.maxNumRuns) :
    countFor i (run t st).2 = 1 ∧
    (run t st).1.timer[i]? =
      some { s with
        prev_millis := t % W
        numRuns := s.numRuns + 1
        toBeCalled := TIMER_DEFCALL_DONTRUN } := by
  have h1 := tick1_fire hc
  rw [if_pos hbud] at h1
  have hmap : (st.timer.map (tick1 (t % W)))[i]? = some (tick1 (t % W) s) := by
    rw [List.getElem?_map, h]
    rfl
  constructor
  · rw [countFor_run, dueMark_of_getElem? hmap, h1]
    simp [TIMER_DEFCALL_DONTRUN, TIMER_DEFCALL_RUNONLY]
  · rw [run_timer_getElem?, h]
    show some (tick2 (tick1 (t % W) s)) = _
    rw [h1, tick2_keep (by simp [TIMER_DEFCALL_RUNONLY, TIMER_DEFCALL_RUNANDDEL])]

lemma run_slot_fire_del {t : Nat} {st : NRF52_ISR_Timer} {i : Nat}
    {s : timer_t} (h : st.timer[i]? = some s)
    (hc : s.callback.isSome ∧ s.enabled ∧
      s.delay ≤ elapsedTime (t % W) s.prev_millis)
    (hbud : ¬ (s.maxNumRuns = TIMER_RUN_FOREVER ∨
      s.numRuns + 1 < s.maxNumRuns)) :
    countFor i (run t st).2 = 1 ∧
    (run t st).1.timer[i]? = some emptySlot := by
  have h1 := tick1_fire hc
  rw [if_neg hbud] at h1
  have hmap : (st.timer.map (tick1 (t % W)))[i]? = some (tick1 (t % W) s) := by
    rw [List.getElem?_map, h]
    rfl
  constructor
  · rw [countFor_run, dueMark_of_getElem? hmap, h1]
    simp [TIMER_DEFCALL_DONTRUN, TIMER_DEFCALL_RUNANDDEL]
  · rw [run_timer_getElem?, h]
    show some (tick2 (tick1 (t % W) s)) = _
    rw [h1, tick2_del rfl]

end NRF52_ISR_Timer

namespace NRF52_ISR_Timer

lemma runs_cons_snd (t : Nat) (ts : List Nat) (st : NRF52_ISR_Timer) :
    (runs (t :: ts) st).2 = (run t st).2 ++ (runs ts (run t st).1).2 := rfl

lemma runs_cons_fst (t : Nat) (ts : List Nat) (st : NRF52_ISR_Timer) :
    (runs (t :: ts) st).1 = (runs ts (run t st).1).1 := rfl

lemma runs_budget_aux (n : Nat) (_hn : 1 ≤ n) (i c : Nat) :
    ∀ (ts : List Nat) (st : NRF52_ISR_Timer) (k : Nat),
      ((k < n ∧ ∃ s, st.timer[i]? = some s ∧ s.callback = some c ∧
          s.enabled = true ∧ s.maxNumRuns = n ∧ s.numRuns = k) ∨
        (k = n ∧ ∃ s, st.timer[i]? = some s ∧ s.callback = none)) →
      countFor i (runs ts st).2 + k ≤ n ∧
      ∃ s1, (runs ts st).1.timer[i]? = some s1 ∧
        (s1.callback = none ↔ countFor i (runs ts st).2 + k = n) := by
  intro ts
  induction ts with
  | nil =>
    intro st k hk
    have hruns2 : (runs ([] : List Nat) st).2 = [] := rfl
    have hruns1 : (runs ([] : List Nat) st).1 = st := rfl
    have hcf : countFor i (runs ([] : List Nat) st).2 = 0 := by
      rw [hruns2]
      rfl
    rw [hcf, hruns1]
    rcases hk with ⟨hlt, s, hs, hcb, -⟩ | ⟨hkn, s, hs, hcb⟩
    · refine ⟨by omega, s, hs, ?_⟩
      rw [hcb]
      constructor
      · intro habs
        cases habs
      · intro habs
        omega
    · refine ⟨by omega, s, hs, ?_⟩
      rw [hcb]
      simp
      omega
  | cons t ts ih =>
    intro st k hk
    rcases hk with ⟨hlt, s, hs, hcb, hen, hmax, hruns⟩ | ⟨hkn, s, hs, hcb⟩
    · have hcs : s.callback.isSome := by
        rw [hcb]
        rfl
      by_cases hdue : s.delay ≤ elapsedTime (t % W) s.prev_millis
      · by_cases hbud : s.numRuns + 1 < s.maxNumRuns
        · obtain ⟨hc1, hslot⟩ :=
            run_slot_fire_keep hs ⟨hcs, hen, hdue⟩ (Or.inr hbud)
          obtain ⟨hA, s1, hs1, hiff⟩ := ih (run t st).1 (k + 1)
            (Or.inl ⟨by omega, _, hslot, hcb, hen, hmax,
              show s.numRuns + 1 = k + 1 by omega⟩)
          rw [runs_cons_fst, runs_cons_snd, countFor_append, hc1]
          refine ⟨by omega, s1, hs1, hiff.trans (by omega)⟩
        · have hkn1 : k + 1 = n := by omega
          obtain ⟨hc1, hslot⟩ :=
            run_slot_fire_del hs ⟨hcs, hen, hdue⟩ (by
              rintro (h0 | hlt2)
              · rw [hmax] at h0
                rw [TIMER_RUN_FOREVER] at h0
                omega
              · exact hbud hlt2)
          obtain ⟨hA, s1, hs1, hiff⟩ := ih (run t st).1 n
            (Or.inr ⟨rfl, emptySlot, hslot, rfl⟩)
          rw [runs_cons_fst, runs_cons_snd, countFor_append, hc1]
          refine ⟨by omega, s1, hs1, hiff.trans (by omega)⟩
      · obtain ⟨hc0, hslot⟩ := run_slot_nofire hs (by
          rintro ⟨-, -, hd⟩
          exact hdue hd)
        obtain ⟨hA, s1, hs1, hiff⟩ := ih (run t st).1 k
          (Or.inl ⟨hlt, _, hslot, hcb, hen, hmax, hruns⟩)
        rw [runs_cons_fst, runs_cons_snd, countFor_append, hc0]
        refine ⟨by omega, s1, hs1, hiff.trans (by omega)⟩
    · have hcn : ¬ (s.callback.isSome ∧ s.enabled ∧
          s.delay ≤ elapsedTime (t % W) s.prev_millis) := by
        rintro ⟨hcs, -, -⟩
        rw [hcb] at hcs
        cases hcs
      obtain ⟨hc0, hslot⟩ := run_slot_nofire hs hcn
      obtain ⟨hA, s1, hs1, hiff⟩ := ih (run t st).1 k
        (Or.inr ⟨hkn, _, hslot, hcb⟩)
      rw [runs_cons_fst, runs_cons_snd, countFor_append, hc0]
      refine ⟨by omega, s1, hs1, hiff.trans (by omega)⟩

lemma countP_eq_one_unique :
    ∀ (l : List timer_t) (p : timer_t → Bool) (i : Nat) (hi : i < l.length),
      p l[i] = true → (∀ j (hj : j < l.length), j ≠ i → p l[j] = false) →
      l.countP p = 1 := by
  intro l
  induction l with
  | nil =>
    intro p i hi
    exact absurd hi (by simp)
  | cons a l ih =>
    intro p i hi hp hq
    cases i with
    | zero =>
      rw [List.countP_cons]
      have hz : l.countP p = 0 := by
        apply List.countP_eq_zero.mpr
        intro x hx
        obtain ⟨j, hj, rfl⟩ := List.mem_iff_getElem.mp hx
        have := hq (j + 1) (by simpa using Nat.succ_lt_succ hj) (by omega)
        simpa using this
      have hpa : p a = true := by simpa using hp
      simp [hz, hpa]
    | succ i2 =>
      rw [List.countP_cons]
      have hpa : p a = false := by
        have := hq 0 (by simp) (by omega)
        simpa using this
      have hlen2 : i2 < l.length := by simpa using hi
      have hp2 : p l[i2] = true := by simpa using hp
      have hq2 : ∀ j (hj : j < l.length), j ≠ i2 → p l[j] = false := by
        intro j hj hne
        have := hq (j + 1) (by simpa using Nat.succ_lt_succ hj) (by omega)
        simpa using this
      rw [ih p i2 hlen2 hp2 hq2]
      simp [hpa]

end NRF52_ISR_Timer

open NRF52_ISR_Timer in
/-- C1: a slot holding a finite run budget n (at least 1, including the
run-once case n = 1) fires at most n times across any sequence of
evaluation passes, is freed exactly when the n-th firing has happened,
fires exactly once in any pass in which it is due, never fires again nor
revives once freed, and in the pass of its final firing (when it is the
only slot deleted in that pass) getNumAvailableTimers() rises by one. -/
theorem claim_C1_finite_budget_fires_exactly_n_then_freed
    (n : Nat) (hn : 1 ≤ n) (i c : Nat) :
    (∀ (st : NRF52_ISR_Timer) (s : timer_t) (ts : List Nat),
      st.timer[i]? = some s → s.callback = some c → s.enabled = true →
      s.maxNumRuns = n → s.numRuns = 0 →
      countFor i (runs ts st).2 ≤ n ∧
      ∃ s1, (runs ts st).1.timer[i]? = some s1 ∧
        (s1.callback = none ↔ countFor i (runs ts st).2 = n)) ∧
    (∀ (st : NRF52_ISR_Timer) (s : timer_t) (t : Nat),
      st.timer[i]? = some s → s.callback = some c → s.enabled = true →
      s.delay ≤ elapsedTime (t % W) s.prev_millis →
      countFor i (run t st).2 = 1) ∧
    (∀ (st : NRF52_ISR_Timer) (s : timer_t) (t : Nat),
      st.timer[i]? = some s → s.callback = none →
      countFor i (run t st).2 = 0 ∧
      ∃ s1, (run t st).1.timer[i]? = some s1 ∧ s1.callback = none) ∧
    (∀ (st : NRF52_ISR_Timer) (s : timer_t) (t : Nat),
      Inv st → st.timer[i]? = some s →
      s.callback = some c → s.enabled = true → s.maxNumRuns = n →
      s.numRuns + 1 = n → s.delay ≤ elapsedTime (t % W) s.prev_millis →
      (∀ j sj, j ≠ i → st.timer[j]? = some sj →
        (tick1 (t % W) sj).toBeCalled ≠ TIMER_DEFCALL_RUNANDDEL) →
      countFor i (run t st).2 = 1 ∧
      (run t st).1.timer[i]? = some emptySlot ∧
      getNumAvailableTimers (run t st).1 = getNumAvailableTimers st + 1) := by
  refine ⟨?_, ?_, ?_, ?_⟩
  · intro st s ts hs hcb hen hmax hruns
    obtain ⟨hA, s1, hs1, hiff⟩ := runs_budget_aux n hn i c ts st 0
      (Or.inl ⟨by omega, s, hs, hcb, hen, hmax, hruns⟩)
    refine ⟨by omega, s1, hs1, hiff.trans (by omega)⟩
  · intro st s t hs hcb hen hdue
    have hcs : s.callback.isSome := by
      rw [hcb]
      rfl
    by_cases hbud : s.maxNumRuns = TIMER_RUN_FOREVER ∨
        s.numRuns + 1 < s.maxNumRuns
    · exact (run_slot_fire_keep hs ⟨hcs, hen, hdue⟩ hbud).1
    · exact (run_slot_fire_del hs ⟨hcs, hen, hdue⟩ hbud).1
  · intro st s t hs hcb
    have hcn : ¬ (s.callback.isSome ∧ s.enabled ∧
        s.delay ≤ elapsedTime (t % W) s.prev_millis) := by
      rintro ⟨hcs, -, -⟩
      rw [hcb] at hcs
      cases hcs
    obtain ⟨h0, hslot⟩ := run_slot_nofire hs hcn
    exact ⟨h0, _, hslot, hcb⟩
  · intro st s t hInv hs hcb hen hmax hrun1 hdue hothers
    have hcs : s.callback.isSome := by
      rw [hcb]
      rfl
    have hbud : ¬ (s.maxNumRuns = TIMER_RUN_FOREVER ∨
        s.numRuns + 1 < s.maxNumRuns) := by
      rintro (h0 | h2)
      · rw [hmax, TIMER_RUN_FOREVER] at h0
        omega
      · omega
    obtain ⟨hc1, hslot⟩ := run_slot_fire_del hs ⟨hcs, hen, hdue⟩ hbud
    obtain ⟨hilt, hgv⟩ := List.getElem?_eq_some.mp hs
    have htbc : (tick1 (t % W) s).toBeCalled = TIMER_DEFCALL_RUNANDDEL := by
      rw [tick1_fire ⟨hcs, hen, hdue⟩, if_neg hbud]
    have hdel1 : (st.timer.map (tick1 (t % W))).countP
        (fun s => s.toBeCalled == TIMER_DEFCALL_RUNANDDEL) = 1 := by
      apply countP_eq_one_unique _ _ i (by simpa using hilt)
      · rw [List.getElem_map]
        rw [hgv]
        simp [htbc]
      · intro j hj hne
        rw [List.getElem_map]
        have hjlt : j < st.timer.length := by simpa using hj
        have hne2 := hothers j st.timer[j] hne (List.getElem?_eq_getElem hjlt)
        simpa using hne2
    have hnum : (run t st).1.numTimers = st.numTimers - 1 := by
      rw [run_state_numTimers, hdel1]
      simp
    have hpos : 0 < countInUse st.timer := by
      apply List.countP_pos_iff.mpr
      refine ⟨s, hgv ▸ List.getElem_mem hilt, ?_⟩
      rw [hcb]
      rfl
    have hcle16 : countInUse st.timer ≤ 16 := by
      have h1 := List.countP_le_length (fun s => s.callback.isSome)
        (l := st.timer)
      rw [hInv.1] at h1
      exact le_trans h1 (by decide)
    have hmax16 : (MAX_NUMBER_TIMERS : Int) = 16 := by decide
    have hpow : ((2 : Int) ^ 32) = 4294967296 := by norm_num
    refine ⟨hc1, hslot, ?_⟩
    unfold getNumAvailableTimers
    rw [hnum, hInv.2, hmax16, hpow]
    rw [Int.emod_eq_of_lt (by omega) (by omega),
      Int.emod_eq_of_lt (by omega) (by omega)]
    omega

open NRF52_ISR_Timer in
/-- Witness for C1: a slot admitted with run budget 3 and interval 5,
evaluated at times 5, 10, 15 and 20, fires at most 3 times and ends
freed exactly because the count reached 3. -/
theorem claim_C1_witness :
    countFor 0 (runs [5, 10, 15, 20] (setTimer 0 5 (some 7) 3 initState).2).2 ≤ 3 ∧
    ∃ s1, (runs [5, 10, 15, 20]
        (setTimer 0 5 (some 7) 3 initState).2).1.timer[0]? = some s1 ∧
      (s1.callback = none ↔
        countFor 0 (runs [5, 10, 15, 20]
          (setTimer 0 5 (some 7) 3 initState).2).2 = 3) :=
  (claim_C1_finite_budget_fires_exactly_n_then_freed 3 (by decide) 0 7).1
    (setTimer 0 5 (some 7) 3 initState).2
    { prev_millis := 0
      callback := some 7
      param := 0
      hasParam := false
      delay := 5
      maxNumRuns := 3
      numRuns := 0
      enabled := true
      toBeCalled := 0 }
    [5, 10, 15, 20] (by decide) (by decide) (by decide) (by decide) (by decide)
